import Mathlib

/-!
Verification of the drucker shell-command synthesizer.

The development embeds the two Rust implementations of the command builder
(the monolithic one in `src/lp.rs` and the modular one in `src/lp/command.rs`)
as Lean functions and proves the specification's claims about them.

Modelling conventions:
* `PathBuf` values are modelled as `String` (the code converts paths with
  `to_string_lossy` before escaping, so the observable value is a string).
* `u32` copies counts are modelled as `Nat`; no arithmetic is performed on
  them, only decimal rendering, which agrees with Rust's `Display` for `u32`.
* `BTreeMap<String, String>` is modelled as an association list that is
  strictly sorted by key, which is exactly the order its iterator yields.
* The scratch-storage collaborator (`temp_path`, `File::create`, `write_all`)
  is modelled by an explicit environment `ScratchEnv` carrying the fresh path
  and the success or failure of the two fallible operations, and the builder
  returns the list of filesystem effects it performed alongside its `Result`.
-/

/-- Options for a print job, `DruckerOptions` in `src/lp/options.rs` and
(duplicated) in `src/lp.rs`. -/
structure DruckerOptions where
  destination : Option String
  copies : Option Nat
  title : Option String
  job_options : List (String × String)
  use_lpr : Bool

/-- Print content variants, `DruckerContent` in `src/lp/content.rs` and
(duplicated) in `src/lp.rs`: raw text or a file path. -/
inductive DruckerContent where
  | text : String → DruckerContent
  | file : String → DruckerContent

/-- One filesystem effect performed by the builder: creating the scratch
file, or writing bytes to it. -/
inductive FsEvent where
  | created : String → FsEvent
  | wrote : String → String → FsEvent

/-- Environment for the scratch-storage collaborator: the fresh path that
`temp_path` returns, and whether `File::create` and `write_all` succeed. -/
structure ScratchEnv where
  tempPath : String
  createOk : Bool
  writeOk : Bool

/-- Rust `s.replace('\'', "'\"'\"'")` on the character list: every single
quote becomes the five-character bridge sequence, all other characters are
kept. -/
def strReplaceQuote : List Char → List Char
  | [] => []
  | c :: cs => (if c = '\'' then ['\'', '"', '\'', '"', '\''] else [c]) ++ strReplaceQuote cs

/-- The character for one decimal digit value. -/
def decDigit (d : Nat) : Char :=
  if d = 0 then '0' else if d = 1 then '1' else if d = 2 then '2'
  else if d = 3 then '3' else if d = 4 then '4' else if d = 5 then '5'
  else if d = 6 then '6' else if d = 7 then '7' else if d = 8 then '8' else '9'

/-- Decimal digits of `n`, most significant first; the first argument is
fuel, large enough at `n + 1`. -/
def natDecimalAux : Nat → Nat → List Char
  | 0, _ => []
  | f + 1, n => if n < 10 then [decDigit n] else natDecimalAux f (n / 10) ++ [decDigit (n % 10)]

/-- Decimal rendering of a number, the embedding of Rust's `Display` for
`u32` as used by `format!(" -#{n}")` and `format!(" -n {n}")`. -/
def natDecimal (n : Nat) : String := String.mk (natDecimalAux (n + 1) n)

namespace command

/-- The function `sh_escape` of `src/lp/command.rs` (lines 74 to 81). -/
def sh_escape (s : String) : String :=
  if s.isEmpty then "''"
  else "'" ++ String.mk (strReplaceQuote s.data) ++ "'"

/-- Lines 16 to 51 of `build_command` in `src/lp/command.rs`: the `base`
string after the tool name, destination, copies, title and `-o` options
have been appended. -/
def build_base (o : DruckerOptions) : String :=
  let base := if o.use_lpr then "lpr" else "lp"
  let base := match o.destination with
    | some dest => if o.use_lpr then base ++ " -P " ++ sh_escape dest
                   else base ++ " -d " ++ sh_escape dest
    | none => base
  let base := match o.copies with
    | some n => if o.use_lpr then base ++ " -#" ++ natDecimal n
                else base ++ " -n " ++ natDecimal n
    | none => base
  let base := match o.title with
    | some t => if o.use_lpr then base ++ " -J " ++ sh_escape t
                else base ++ " -t " ++ sh_escape t
    | none => base
  o.job_options.foldl (fun b kv => b ++ " -o " ++ kv.1 ++ "=" ++ kv.2) base

/-- The function `build_command` of `src/lp/command.rs` (lines 12 to 69),
with the scratch-storage collaborator passed explicitly and the performed
filesystem effects returned alongside the `Result`. -/
def build_command (options : DruckerOptions) (content : DruckerContent) (env : ScratchEnv) :
    Except Unit String × List FsEvent :=
  let base := build_base options
  match content with
  | DruckerContent.file p =>
    if p.isEmpty then (Except.error (), [])
    else (Except.ok (base ++ " " ++ sh_escape p), [])
  | DruckerContent.text s =>
    let path := env.tempPath
    if env.createOk then
      if env.writeOk then
        (Except.ok (base ++ " " ++ sh_escape path),
         [FsEvent.created path, FsEvent.wrote path s])
      else (Except.error (), [FsEvent.created path])
    else (Except.error (), [])

end command

namespace lp

/-- The function `sh_escape` of `src/lp.rs` (lines 223 to 230), the
monolithic duplicate. -/
def sh_escape (s : String) : String :=
  if s.isEmpty then "''"
  else "'" ++ String.mk (strReplaceQuote s.data) ++ "'"

/-- The handle type `Drucker` of `src/lp.rs`. -/
structure Drucker where
  options : DruckerOptions

/-- The method `Drucker::build_command` of `src/lp.rs` (lines 155 to 217),
the monolithic duplicate, with the same scratch-storage modelling. -/
def Drucker.build_command (self : Drucker) (content : DruckerContent) (env : ScratchEnv) :
    Except Unit String × List FsEvent :=
  let base := if self.options.use_lpr then "lpr" else "lp"
  let base := match self.options.destination with
    | some dest => if self.options.use_lpr then base ++ " -P " ++ sh_escape dest
                   else base ++ " -d " ++ sh_escape dest
    | none => base
  let base := match self.options.copies with
    | some n => if self.options.use_lpr then base ++ " -#" ++ natDecimal n
                else base ++ " -n " ++ natDecimal n
    | none => base
  let base := match self.options.title with
    | some t => if self.options.use_lpr then base ++ " -J " ++ sh_escape t
                else base ++ " -t " ++ sh_escape t
    | none => base
  let base := self.options.job_options.foldl
    (fun b kv => b ++ " -o " ++ kv.1 ++ "=" ++ kv.2) base
  match content with
  | DruckerContent.file p =>
    if p.isEmpty then (Except.error (), [])
    else (Except.ok (base ++ " " ++ sh_escape p), [])
  | DruckerContent.text s =>
    let path := env.tempPath
    if env.createOk then
      if env.writeOk then
        (Except.ok (base ++ " " ++ sh_escape path),
         [FsEvent.created path, FsEvent.wrote path s])
      else (Except.error (), [FsEvent.created path])
    else (Except.error (), [])

end lp

/-- Modelled from the spec: the three quoting modes a POSIX shell can be in
while reading one word. -/
inductive QMode where
  | norm
  | sq
  | dq

/-- Modelled from the spec: characters a POSIX shell does not take literally
when they appear unquoted in a word (whitespace, quoting characters, and the
expansion and control metacharacters listed in the round-trip property). -/
def unquotedSpecial (c : Char) : Bool :=
  c == ' ' || c == '\t' || c == '\n' || c == '\\' || c == '$' || c == '\x60' ||
  c == ';' || c == '&' || c == '|' || c == '<' || c == '>' ||
  c == '(' || c == ')' || c == '*' || c == '?' || c == '[' || c == '#' || c == '~'

/-- Modelled from the spec: a POSIX-compliant shell reading one word.
In the normal mode a single quote opens single-quoting, a double quote opens
double-quoting, any special character would be expanded or would split the
word (so the read fails to be a literal word), and any other character is
literal.  Inside single quotes every character up to the closing quote is
literal.  Inside double quotes, dollar, backquote and backslash would be
expanded, a double quote closes the segment, and other characters are
literal.  The whole input must be consumed in normal mode. -/
def dequoteAux : QMode → List Char → Option (List Char)
  | QMode.norm, [] => some []
  | QMode.norm, c :: cs =>
    if c = '\'' then dequoteAux QMode.sq cs
    else if c = '"' then dequoteAux QMode.dq cs
    else if unquotedSpecial c then none
    else (dequoteAux QMode.norm cs).map (fun l => c :: l)
  | QMode.sq, [] => none
  | QMode.sq, c :: cs =>
    if c = '\'' then dequoteAux QMode.norm cs
    else (dequoteAux QMode.sq cs).map (fun l => c :: l)
  | QMode.dq, [] => none
  | QMode.dq, c :: cs =>
    if c = '"' then dequoteAux QMode.norm cs
    else if c = '$' || c = '\x60' || c = '\\' then none
    else (dequoteAux QMode.dq cs).map (fun l => c :: l)

/-- Modelled from the spec: the string a POSIX shell passes as the single
argument when the input is one shell word, or `none` when the input is not
one literal word. -/
def posixDequote (s : String) : Option String :=
  (dequoteAux QMode.norm s.data).map String.mk

/-- Spec step 7 reading of a token list: a space before each token after the
first. -/
def sJoin : List String → String
  | [] => ""
  | t :: ts => " " ++ t ++ sJoin ts

/-- Spec step 7: concatenate all tokens with single-space separators. -/
def joinTokens : List String → String
  | [] => ""
  | t :: ts => t ++ sJoin ts

/-- The wire format of the spec, section 6: the whitespace-delimited tokens
`<tool> [-d|-P <dest>] [-n <n>|-#<n>] [-t|-J <title>] {-o key=value}*
<content-path>`, with the content token passed in already escaped. -/
def specTokens (o : DruckerOptions) (fileTok : String) : List String :=
  [if o.use_lpr then "lpr" else "lp"]
    ++ (match o.destination with
        | some d => [if o.use_lpr then "-P" else "-d", command.sh_escape d]
        | none => [])
    ++ (match o.copies with
        | some n => if o.use_lpr then ["-#" ++ natDecimal n] else ["-n", natDecimal n]
        | none => [])
    ++ (match o.title with
        | some t => [if o.use_lpr then "-J" else "-t", command.sh_escape t]
        | none => [])
    ++ o.job_options.flatMap (fun kv => ["-o", kv.1 ++ "=" ++ kv.2])
    ++ [fileTok]

/-- The tool token chosen by the variant flag. -/
def toolStr (o : DruckerOptions) : String := if o.use_lpr then "lpr" else "lp"

/-- The destination segment of the built command. -/
def dSeg (o : DruckerOptions) : String :=
  match o.destination with
  | some d => (if o.use_lpr then " -P " else " -d ") ++ command.sh_escape d
  | none => ""

/-- The copies segment of the built command. -/
def cSeg (o : DruckerOptions) : String :=
  match o.copies with
  | some n => (if o.use_lpr then " -#" else " -n ") ++ natDecimal n
  | none => ""

/-- The title segment of the built command. -/
def tSeg (o : DruckerOptions) : String :=
  match o.title with
  | some t => (if o.use_lpr then " -J " else " -t ") ++ command.sh_escape t
  | none => ""

/-- The job-options segment of the built command. -/
def oSegStr : List (String × String) → String
  | [] => ""
  | kv :: l => " -o " ++ kv.1 ++ "=" ++ kv.2 ++ oSegStr l

/-- Lexicographic strict order on character lists, the model of the
byte-lexicographic `Ord` that `BTreeMap<String, _>` sorts keys by (UTF-8
byte order coincides with code-point order). -/
def listLtChar : List Char → List Char → Bool
  | [], [] => false
  | [], _ :: _ => true
  | _ :: _, [] => false
  | a :: as, b :: bs => if a < b then true else if b < a then false else listLtChar as bs

/-- Lexicographic strict order on strings. -/
def strLt (a b : String) : Bool := listLtChar a.data b.data

/-- The model of `BTreeMap::insert` on the key-sorted association list:
insert before the first larger key, replace an equal key. -/
def btreeInsert : List (String × String) → String → String → List (String × String)
  | [], k, v => [(k, v)]
  | (j, w) :: l, k, v =>
    if strLt k j then (k, v) :: (j, w) :: l
    else if k = j then (k, v) :: l
    else (j, w) :: btreeInsert l k v

/-- The `BTreeMap` iteration invariant: keys strictly ascending. -/
def KeysSorted (l : List (String × String)) : Prop :=
  List.Chain' (fun a b => strLt a.1 b.1 = true) l

/-- The escaped content token a successful build ends with: the escaped file
path for a file reference, the escaped scratch path for inline text. -/
def contentTok : DruckerContent → ScratchEnv → String
  | DruckerContent.file p, _ => command.sh_escape p
  | DruckerContent.text _, env => command.sh_escape env.tempPath

/- ======================= theorems ======================= -/

/-- Two strings with the same character list are equal. -/
theorem strEq_of_data {a b : String} (h : a.data = b.data) : a = b := by
  cases a; cases b; exact congrArg String.mk h

/-- The per-character replacement loop is the flat map of the per-character
replacement. -/
theorem strReplaceQuote_eq_flatMap (l : List Char) :
    strReplaceQuote l =
      l.flatMap (fun c => if c = '\'' then ['\'', '"', '\'', '"', '\''] else [c]) := by
  induction l with
  | nil => rfl
  | cons c cs ih => simp [strReplaceQuote, ih]

/-- C2: the escaper computes exactly the specified algorithm: the empty
string maps to the two-character literal `''`, and a non-empty string is
wrapped in single quotes with every embedded single quote replaced by the
five-character bridge sequence. -/
theorem c2_escape_algorithm :
    command.sh_escape "" = "''" ∧
    ∀ s : String, s ≠ "" →
      command.sh_escape s =
        "'" ++ String.mk (s.data.flatMap
          (fun c => if c = '\'' then ['\'', '"', '\'', '"', '\''] else [c])) ++ "'" := by
  refine ⟨rfl, fun s hs => ?_⟩
  have he : s.isEmpty = false := by
    cases h : s.isEmpty
    · rfl
    · exact absurd ((String.isEmpty_iff s).mp h) hs
  rw [command.sh_escape, he, strReplaceQuote_eq_flatMap]
  rfl

/-- Witness for C2 at a concrete input containing a single quote. -/
theorem c2_escape_algorithm_witness :
    command.sh_escape "a'b" =
      "'" ++ String.mk (("a'b" : String).data.flatMap
        (fun c => if c = '\'' then ['\'', '"', '\'', '"', '\''] else [c])) ++ "'" :=
  c2_escape_algorithm.2 "a'b" (by decide)

/-- Dequoting the replaced body followed by the closing quote, starting
inside single quotes, recovers exactly the body. -/
theorem dequoteAux_sq_replaced (l : List Char) :
    dequoteAux QMode.sq (strReplaceQuote l ++ ['\'']) = some l := by
  induction l with
  | nil => rfl
  | cons c cs ih =>
    by_cases hc : c = '\''
    · subst hc
      have hstep :
          dequoteAux QMode.sq (strReplaceQuote ('\'' :: cs) ++ ['\'']) =
            (dequoteAux QMode.sq (strReplaceQuote cs ++ ['\''])).map
              (fun l => '\'' :: l) := rfl
      rw [hstep, ih]
      rfl
    · have hrep : strReplaceQuote (c :: cs) ++ ['\''] =
          c :: (strReplaceQuote cs ++ ['\'']) := by
        simp [strReplaceQuote, hc]
      rw [hrep]
      have hstep : dequoteAux QMode.sq (c :: (strReplaceQuote cs ++ ['\''])) =
          if c = '\'' then dequoteAux QMode.norm (strReplaceQuote cs ++ ['\''])
          else (dequoteAux QMode.sq (strReplaceQuote cs ++ ['\''])).map
            (fun l => c :: l) := rfl
      rw [hstep, if_neg hc, ih]
      rfl

/-- C1: the round-trip property: a POSIX-compliant shell reads the escaper's
output as one word whose value is exactly the original string, with no
expansion, for every string including the empty string and strings with
quotes, spaces, newlines and shell metacharacters. -/
theorem c1_escape_roundtrip (s : String) :
    posixDequote (command.sh_escape s) = some s := by
  by_cases hs : s = ""
  · subst hs; rfl
  · have he : s.isEmpty = false := by
      cases h : s.isEmpty
      · rfl
      · exact absurd ((String.isEmpty_iff s).mp h) hs
    have h1 : command.sh_escape s = "'" ++ String.mk (strReplaceQuote s.data) ++ "'" := by
      unfold command.sh_escape
      rw [he]
      rfl
    have h2 : ("'" ++ String.mk (strReplaceQuote s.data) ++ "'").data =
        '\'' :: (strReplaceQuote s.data ++ ['\'']) := rfl
    have h3 : dequoteAux QMode.norm ('\'' :: (strReplaceQuote s.data ++ ['\''])) =
        dequoteAux QMode.sq (strReplaceQuote s.data ++ ['\'']) := rfl
    rw [posixDequote, h1, h2, h3, dequoteAux_sq_replaced]
    rfl

/-- C4: building with a file reference whose path is empty fails, returns no
command string, and performs no filesystem effect. -/
theorem c4_empty_path_rejected (o : DruckerOptions) (env : ScratchEnv) :
    command.build_command o (DruckerContent.file "") env = (Except.error (), []) := rfl

/-- C3 counterexample: at concrete inputs, the error value returned for an
empty file path equals the error value returned when scratch-file creation
fails; both are `Err(())`, so the two failure kinds are not distinguishable
by the caller, contrary to the claim. -/
theorem c3_error_kinds_counterexample :
    (command.build_command ⟨none, none, none, [], false⟩ (DruckerContent.file "")
        ⟨"/tmp/drucker-0.txt", true, true⟩).1 = Except.error () ∧
    (command.build_command ⟨none, none, none, [], false⟩ (DruckerContent.text "hello")
        ⟨"/tmp/drucker-0.txt", false, false⟩).1 = Except.error () ∧
    (command.build_command ⟨none, none, none, [], false⟩ (DruckerContent.file "")
        ⟨"/tmp/drucker-0.txt", true, true⟩).1 =
      (command.build_command ⟨none, none, none, [], false⟩ (DruckerContent.text "hello")
        ⟨"/tmp/drucker-0.txt", false, false⟩).1 :=
  ⟨rfl, rfl, rfl⟩

/-- C3 amended: the builder surfaces its failures as a result value, but the
error type is the unit type: the empty-path failure and the scratch-file
failure both return the same error value, so the kinds are not
distinguishable by the caller. -/
theorem c3_error_kinds_amended (o : DruckerOptions) (env scratchFail : ScratchEnv)
    (s : String) (h : scratchFail.createOk = false) :
    (command.build_command o (DruckerContent.file "") env).1 = Except.error () ∧
    (command.build_command o (DruckerContent.text s) scratchFail).1 = Except.error () ∧
    (command.build_command o (DruckerContent.file "") env).1 =
      (command.build_command o (DruckerContent.text s) scratchFail).1 := by
  have h2 : (command.build_command o (DruckerContent.text s) scratchFail).1 =
      Except.error () := by
    simp [command.build_command, h]
  refine ⟨rfl, h2, ?_⟩
  rw [h2]
  rfl

/-- Witness for the amended C3 at concrete inputs. -/
theorem c3_error_kinds_amended_witness :
    (command.build_command ⟨none, none, none, [], true⟩ (DruckerContent.file "")
        ⟨"/tmp/drucker-1.txt", true, true⟩).1 = Except.error () ∧
    (command.build_command ⟨none, none, none, [], true⟩ (DruckerContent.text "x")
        ⟨"/tmp/drucker-1.txt", false, true⟩).1 = Except.error () ∧
    (command.build_command ⟨none, none, none, [], true⟩ (DruckerContent.file "")
        ⟨"/tmp/drucker-1.txt", true, true⟩).1 =
      (command.build_command ⟨none, none, none, [], true⟩ (DruckerContent.text "x")
        ⟨"/tmp/drucker-1.txt", false, true⟩).1 :=
  c3_error_kinds_amended ⟨none, none, none, [], true⟩ ⟨"/tmp/drucker-1.txt", true, true⟩
    ⟨"/tmp/drucker-1.txt", false, true⟩ "x" rfl

/-- String append is associative. -/
theorem sapp_assoc (a b c : String) : a ++ b ++ c = a ++ (b ++ c) :=
  strEq_of_data (by simp [String.data_append])

/-- The empty string is a right unit for append. -/
theorem sapp_empty (a : String) : a ++ "" = a :=
  strEq_of_data (by simp [String.data_append])

/-- The empty string is a left unit for append. -/
theorem empty_sapp (a : String) : "" ++ a = a :=
  strEq_of_data (by simp [String.data_append])

/-- The job-options loop appends the rendering of the remaining pairs to the
accumulator. -/
theorem foldl_oSegStr (l : List (String × String)) (b : String) :
    l.foldl (fun b kv => b ++ " -o " ++ kv.1 ++ "=" ++ kv.2) b = b ++ oSegStr l := by
  induction l generalizing b with
  | nil => simp [oSegStr, sapp_empty]
  | cons kv l ih =>
    rw [List.foldl_cons, ih]
    simp [oSegStr, sapp_assoc]

/-- The built base string splits into its tool, destination, copies, title
and job-options segments. -/
theorem build_base_decomp (o : DruckerOptions) :
    command.build_base o =
      toolStr o ++ dSeg o ++ cSeg o ++ tSeg o ++ oSegStr o.job_options := by
  obtain ⟨d, c, t, j, u⟩ := o
  cases u <;> cases d <;> cases c <;> cases t <;>
    (simp only [command.build_base, foldl_oSegStr]
     simp [toolStr, dSeg, cSeg, tSeg, sapp_assoc, sapp_empty]
     try rfl)

/-- C5: a present destination is rendered as the variant-selected flag
followed by the escaped destination value: `-P` under the lpr variant and
`-d` under the lp variant, and the spec's concrete examples hold. -/
theorem c5_destination_flag (o : DruckerOptions) (d : String)
    (hd : o.destination = some d) :
    (o.use_lpr = true →
      command.build_base o =
        toolStr o ++ " -P " ++ command.sh_escape d ++
          (cSeg o ++ tSeg o ++ oSegStr o.job_options)) ∧
    (o.use_lpr = false →
      command.build_base o =
        toolStr o ++ " -d " ++ command.sh_escape d ++
          (cSeg o ++ tSeg o ++ oSegStr o.job_options)) ∧
    command.build_base ⟨some "Office Printer", none, none, [], false⟩ =
      "lp -d 'Office Printer'" ∧
    command.build_base ⟨some "Office Printer", none, none, [], true⟩ =
      "lpr -P 'Office Printer'" := by
  refine ⟨fun hu => ?_, fun hu => ?_, rfl, rfl⟩ <;>
    (rw [build_base_decomp]
     simp [dSeg, hd, hu, sapp_assoc])

/-- Witness for C5 at a concrete options value. -/
theorem c5_destination_flag_witness :
    command.build_base ⟨some "Office Printer", some 2, none, [], true⟩ =
      toolStr ⟨some "Office Printer", some 2, none, [], true⟩ ++ " -P " ++
        command.sh_escape "Office Printer" ++
        (cSeg ⟨some "Office Printer", some 2, none, [], true⟩ ++
         tSeg ⟨some "Office Printer", some 2, none, [], true⟩ ++
         oSegStr [] ) :=
  (c5_destination_flag ⟨some "Office Printer", some 2, none, [], true⟩
    "Office Printer" rfl).1 rfl

/-- Each decimal digit character is a digit. -/
theorem decDigit_isDigit (d : Nat) : (decDigit d).isDigit = true := by
  unfold decDigit
  repeat' split
  all_goals decide

/-- Every character of the fuel-indexed decimal rendering is a digit. -/
theorem natDecimalAux_digits (f : Nat) : ∀ (n : Nat), ∀ ch ∈ natDecimalAux f n,
    ch.isDigit = true := by
  induction f with
  | zero => intro n ch h; simp [natDecimalAux] at h
  | succ f ih =>
    intro n ch h
    rw [natDecimalAux] at h
    by_cases h10 : n < 10
    · rw [if_pos h10] at h
      simp only [List.mem_singleton] at h
      subst h
      exact decDigit_isDigit n
    · rw [if_neg h10] at h
      rcases List.mem_append.mp h with h | h
      · exact ih _ ch h
      · simp only [List.mem_singleton] at h
        subst h
        exact decDigit_isDigit _

/-- Every character of the decimal rendering is a digit. -/
theorem natDecimal_digits (n : Nat) : ∀ ch ∈ (natDecimal n).data, ch.isDigit = true :=
  natDecimalAux_digits (n + 1) n

/-- C6: a present copies count is rendered as the flag `-n` plus a space and
the decimal count under the lp variant, and as `-#` immediately followed by
the decimal count with no separating space under the lpr variant; the count
renders as decimal digits only, and the spec's concrete examples hold. -/
theorem c6_copies_rendering (o : DruckerOptions) (n : Nat) (hc : o.copies = some n) :
    (o.use_lpr = true →
      command.build_base o =
        toolStr o ++ dSeg o ++ " -#" ++ natDecimal n ++
          (tSeg o ++ oSegStr o.job_options)) ∧
    (o.use_lpr = false →
      command.build_base o =
        toolStr o ++ dSeg o ++ " -n " ++ natDecimal n ++
          (tSeg o ++ oSegStr o.job_options)) ∧
    (∀ ch ∈ (natDecimal n).data, ch.isDigit = true) ∧
    command.build_base ⟨none, some 2, none, [], false⟩ = "lp -n 2" ∧
    command.build_base ⟨none, some 2, none, [], true⟩ = "lpr -#2" := by
  refine ⟨fun hu => ?_, fun hu => ?_, natDecimal_digits n, rfl, rfl⟩ <;>
    (rw [build_base_decomp]
     simp [cSeg, hc, hu, sapp_assoc])

/-- Witness for C6 at a concrete options value. -/
theorem c6_copies_rendering_witness :
    command.build_base ⟨none, some 12, none, [], true⟩ =
      toolStr ⟨none, some 12, none, [], true⟩ ++ dSeg ⟨none, some 12, none, [], true⟩ ++
        " -#" ++ natDecimal 12 ++
        (tSeg ⟨none, some 12, none, [], true⟩ ++ oSegStr []) :=
  (c6_copies_rendering ⟨none, some 12, none, [], true⟩ 12 rfl).1 rfl

/-- C8: with inline text content and a successful scratch write, the builder
creates the scratch file, writes exactly the given text bytes with no
transformation, and returns the command string ending in a space and the
escaped scratch path as its final token. -/
theorem c8_inline_text (o : DruckerOptions) (s : String) (env : ScratchEnv)
    (hc : env.createOk = true) (hw : env.writeOk = true) :
    command.build_command o (DruckerContent.text s) env =
      (Except.ok (command.build_base o ++ " " ++ command.sh_escape env.tempPath),
       [FsEvent.created env.tempPath, FsEvent.wrote env.tempPath s]) := by
  simp [command.build_command, hc, hw]

/-- Witness for C8 at a concrete inline text containing a newline. -/
theorem c8_inline_text_witness :
    command.build_command ⟨none, none, none, [], false⟩
        (DruckerContent.text "hello\nworld") ⟨"/tmp/drucker-2.txt", true, true⟩ =
      (Except.ok (command.build_base ⟨none, none, none, [], false⟩ ++ " " ++
        command.sh_escape "/tmp/drucker-2.txt"),
       [FsEvent.created "/tmp/drucker-2.txt",
        FsEvent.wrote "/tmp/drucker-2.txt" "hello\nworld"]) :=
  c8_inline_text ⟨none, none, none, [], false⟩ "hello\nworld"
    ⟨"/tmp/drucker-2.txt", true, true⟩ rfl rfl

/-- The character list of a space. -/
theorem dataSpace : (" " : String).data = [' '] := rfl

/-- The character list of the equals sign. -/
theorem dataEq : ("=" : String).data = ['='] := rfl

/-- The character list of the lp tool name. -/
theorem dataLpTool : ("lp" : String).data = ['l', 'p'] := rfl

/-- The character list of the lpr tool name. -/
theorem dataLprTool : ("lpr" : String).data = ['l', 'p', 'r'] := rfl

/-- The character lists of the bare flag tokens. -/
theorem dataFlagToks :
    ("-P" : String).data = ['-', 'P'] ∧ ("-d" : String).data = ['-', 'd'] ∧
    ("-n" : String).data = ['-', 'n'] ∧ ("-J" : String).data = ['-', 'J'] ∧
    ("-t" : String).data = ['-', 't'] ∧ ("-o" : String).data = ['-', 'o'] ∧
    ("-#" : String).data = ['-', '#'] := by
  refine ⟨rfl, rfl, rfl, rfl, rfl, rfl, rfl⟩

/-- The character lists of the space-padded flag segments the code appends. -/
theorem dataFlagSegs :
    (" -P " : String).data = [' ', '-', 'P', ' '] ∧
    (" -d " : String).data = [' ', '-', 'd', ' '] ∧
    (" -n " : String).data = [' ', '-', 'n', ' '] ∧
    (" -J " : String).data = [' ', '-', 'J', ' '] ∧
    (" -t " : String).data = [' ', '-', 't', ' '] ∧
    (" -o " : String).data = [' ', '-', 'o', ' '] ∧
    (" -#" : String).data = [' ', '-', '#'] := by
  refine ⟨rfl, rfl, rfl, rfl, rfl, rfl, rfl⟩

/-- The character list of the empty string. -/
theorem dataEmptyStr : ("" : String).data = [] := rfl

/-- The token join distributes over list append. -/
theorem sJoin_append (a b : List String) : sJoin (a ++ b) = sJoin a ++ sJoin b := by
  induction a with
  | nil => simp [sJoin, empty_sapp]
  | cons t ts ih => simp [sJoin, ih, sapp_assoc]

/-- The job-option token pairs join to the job-options segment of the code. -/
theorem sJoin_optTokens (j : List (String × String)) :
    sJoin (j.flatMap (fun kv => ["-o", kv.1 ++ "=" ++ kv.2])) = oSegStr j := by
  induction j with
  | nil => rfl
  | cons kv l ih =>
    rw [List.flatMap_cons, sJoin_append, ih]
    apply strEq_of_data
    simp [sJoin, oSegStr, String.data_append, dataSpace, dataEq,
      dataFlagToks.2.2.2.2.2.1, dataFlagSegs.2.2.2.2.2.1, dataEmptyStr]

/-- The spec's token list, joined with single-space separators, is exactly
the string the code builds: the base segments followed by a space and the
content token. -/
theorem joinTokens_specTokens (o : DruckerOptions) (f : String) :
    joinTokens (specTokens o f) = command.build_base o ++ " " ++ f := by
  obtain ⟨d, c, t, j, u⟩ := o
  rw [build_base_decomp]
  cases u <;> cases d <;> cases c <;> cases t <;>
    (apply strEq_of_data
     simp [specTokens, joinTokens, sJoin, sJoin_append, sJoin_optTokens, toolStr,
       dSeg, cSeg, tSeg, String.data_append, dataSpace, dataEq, dataLpTool,
       dataLprTool, dataFlagToks.1, dataFlagToks.2.1, dataFlagToks.2.2.1,
       dataFlagToks.2.2.2.1, dataFlagToks.2.2.2.2.1, dataFlagToks.2.2.2.2.2.1,
       dataFlagToks.2.2.2.2.2.2, dataFlagSegs.1, dataFlagSegs.2.1,
       dataFlagSegs.2.2.1, dataFlagSegs.2.2.2.1, dataFlagSegs.2.2.2.2.1,
       dataFlagSegs.2.2.2.2.2.1, dataFlagSegs.2.2.2.2.2.2, dataEmptyStr])

/-- C9: every successfully built command string is exactly the fixed-order
token sequence of the wire format joined with single-space separators: the
variant-selected tool name, the destination flag and escaped value if
present, the copies rendering if present, the title flag and escaped value
if present, every `-o key=value` pair, and the escaped content path last. -/
theorem c9_wire_format (o : DruckerOptions) (content : DruckerContent)
    (env : ScratchEnv) (cmd : String)
    (h : (command.build_command o content env).1 = Except.ok cmd) :
    cmd = joinTokens (specTokens o (contentTok content env)) := by
  rw [joinTokens_specTokens]
  cases content with
  | file p =>
    by_cases hp : p.isEmpty
    · simp [command.build_command, hp] at h
    · simp [command.build_command, hp, contentTok] at h
      exact h.symm
  | text s =>
    cases hc : env.createOk with
    | false => simp [command.build_command, hc] at h
    | true =>
      cases hw : env.writeOk with
      | false => simp [command.build_command, hc, hw] at h
      | true =>
        simp [command.build_command, hc, hw, contentTok] at h
        exact h.symm

/-- Witness for C9 at a concrete options value and file content. -/
theorem c9_wire_format_witness :
    command.build_base ⟨some "Office Printer", some 2, some "Q2",
        [("sides", "two-sided-long-edge")], true⟩ ++ " " ++
      command.sh_escape "/tmp/report.pdf" =
      joinTokens (specTokens ⟨some "Office Printer", some 2, some "Q2",
        [("sides", "two-sided-long-edge")], true⟩
        (contentTok (DruckerContent.file "/tmp/report.pdf")
          ⟨"/tmp/drucker-3.txt", true, true⟩)) :=
  c9_wire_format ⟨some "Office Printer", some 2, some "Q2",
      [("sides", "two-sided-long-edge")], true⟩
    (DruckerContent.file "/tmp/report.pdf") ⟨"/tmp/drucker-3.txt", true, true⟩
    (command.build_base ⟨some "Office Printer", some 2, some "Q2",
      [("sides", "two-sided-long-edge")], true⟩ ++ " " ++
      command.sh_escape "/tmp/report.pdf")
    rfl

/-- C10: the monolithic implementation in `src/lp.rs` and the modular
implementation in `src/lp/command.rs` agree extensionally: the two escapers
return the same string on every input, and the two builders return the same
result and the same effects on every options value, content value and
scratch environment. -/
theorem c10_duplicates_agree :
    (∀ s : String, lp.sh_escape s = command.sh_escape s) ∧
    (∀ (o : DruckerOptions) (c : DruckerContent) (env : ScratchEnv),
      (lp.Drucker.mk o).build_command c env = command.build_command o c env) :=
  ⟨fun _ => rfl, fun _ _ _ => rfl⟩

/-- The lexicographic order is irreflexive. -/
theorem listLtChar_irrefl (l : List Char) : listLtChar l l = false := by
  induction l with
  | nil => rfl
  | cons a as ih => simp [listLtChar, lt_irrefl, ih]

/-- The lexicographic order is asymmetric. -/
theorem listLtChar_asymm {l m : List Char} (h : listLtChar l m = true) :
    listLtChar m l = false := by
  induction l generalizing m with
  | nil =>
    cases m with
    | nil => simp [listLtChar] at h
    | cons b bs => rfl
  | cons a as ih =>
    cases m with
    | nil => simp [listLtChar] at h
    | cons b bs =>
      rw [listLtChar] at h ⊢
      rcases lt_trichotomy a b with hab | hab | hab
      · rw [if_neg (asymm hab), if_pos hab]
      · subst hab
        rw [if_neg (lt_irrefl a), if_neg (lt_irrefl a)] at h ⊢
        exact ih h
      · rw [if_pos hab, if_neg (asymm hab)] at h
        exact absurd h (by simp)

/-- The lexicographic order is trichotomous. -/
theorem listLtChar_tri (l m : List Char) :
    listLtChar l m = true ∨ l = m ∨ listLtChar m l = true := by
  induction l generalizing m with
  | nil =>
    cases m with
    | nil => exact Or.inr (Or.inl rfl)
    | cons b bs => exact Or.inl rfl
  | cons a as ih =>
    cases m with
    | nil => exact Or.inr (Or.inr rfl)
    | cons b bs =>
      rcases lt_trichotomy a b with hab | hab | hab
      · left
        simp [listLtChar, hab]
      · subst hab
        rcases ih bs with h | h | h
        · left
          simp [listLtChar, lt_irrefl, h]
        · right; left
          rw [h]
        · right; right
          simp [listLtChar, lt_irrefl, h]
      · right; right
        simp [listLtChar, hab]

/-- The lexicographic order is transitive. -/
theorem listLtChar_trans {l m n : List Char} (h1 : listLtChar l m = true)
    (h2 : listLtChar m n = true) : listLtChar l n = true := by
  induction l generalizing m n with
  | nil =>
    cases m with
    | nil => simp [listLtChar] at h1
    | cons b bs =>
      cases n with
      | nil => simp [listLtChar] at h2
      | cons c cs => rfl
  | cons a as ih =>
    cases m with
    | nil => simp [listLtChar] at h1
    | cons b bs =>
      cases n with
      | nil => simp [listLtChar] at h2
      | cons c cs =>
        rw [listLtChar] at h1 h2 ⊢
        rcases lt_trichotomy a b with hab | hab | hab
        · rcases lt_trichotomy b c with hbc | hbc | hbc
          · rw [if_pos (lt_trans hab hbc)]
          · subst hbc
            rw [if_pos hab]
          · rw [if_neg (asymm hbc), if_pos hbc] at h2
            exact absurd h2 (by simp)
        · subst hab
          rcases lt_trichotomy a c with hac | hac | hac
          · rw [if_pos hac]
          · subst hac
            rw [if_neg (lt_irrefl a), if_neg (lt_irrefl a)] at h1 h2 ⊢
            exact ih h1 h2
          · rw [if_neg (asymm hac), if_pos hac] at h2
            exact absurd h2 (by simp)
        · rw [if_neg (asymm hab), if_pos hab] at h1
          exact absurd h1 (by simp)

/-- String lexicographic order is irreflexive. -/
theorem strLt_irrefl (s : String) : strLt s s = false := listLtChar_irrefl s.data

/-- String lexicographic order is asymmetric. -/
theorem strLt_asymm {a b : String} (h : strLt a b = true) : strLt b a = false :=
  listLtChar_asymm h

/-- String lexicographic order is trichotomous. -/
theorem strLt_tri (a b : String) : strLt a b = true ∨ a = b ∨ strLt b a = true := by
  rcases listLtChar_tri a.data b.data with h | h | h
  · exact Or.inl h
  · exact Or.inr (Or.inl (strEq_of_data h))
  · exact Or.inr (Or.inr h)

/-- String lexicographic order is transitive. -/
theorem strLt_trans {a b c : String} (h1 : strLt a b = true) (h2 : strLt b c = true) :
    strLt a c = true := listLtChar_trans h1 h2

/-- Strictly smaller strings are different. -/
theorem ne_of_strLt {a b : String} (h : strLt a b = true) : a ≠ b := by
  intro heq
  subst heq
  rw [strLt_irrefl] at h
  exact absurd h (by simp)

/-- Inserting a key larger than a lower bound of the list keeps the lower
bound on the head. -/
theorem btreeInsert_head_lt (l : List (String × String)) (k v j : String)
    (hk : strLt j k = true) (hl : ∀ x ∈ l.head?, strLt j x.1 = true) :
    ∀ x ∈ (btreeInsert l k v).head?, strLt j x.1 = true := by
  cases l with
  | nil =>
    intro x hx
    simp only [btreeInsert, List.head?_cons, Option.mem_def, Option.some.injEq] at hx
    subst hx
    exact hk
  | cons a l =>
    obtain ⟨a1, a2⟩ := a
    intro x hx
    rw [btreeInsert] at hx
    by_cases h1 : strLt k a1 = true
    · rw [if_pos h1] at hx
      simp only [List.head?_cons, Option.mem_def, Option.some.injEq] at hx
      subst hx
      exact hk
    · rw [if_neg h1] at hx
      by_cases h2 : k = a1
      · rw [if_pos h2] at hx
        simp only [List.head?_cons, Option.mem_def, Option.some.injEq] at hx
        subst hx
        exact hk
      · rw [if_neg h2] at hx
        simp only [List.head?_cons, Option.mem_def, Option.some.injEq] at hx
        subst hx
        exact hl (a1, a2) (by simp)

/-- Inserting into a key-sorted association list keeps it key-sorted. -/
theorem btreeInsert_sorted {l : List (String × String)} (k v : String)
    (h : KeysSorted l) : KeysSorted (btreeInsert l k v) := by
  induction l with
  | nil =>
    rw [btreeInsert]
    exact List.chain'_singleton _
  | cons a l ih =>
    obtain ⟨j, w⟩ := a
    rw [KeysSorted, List.chain'_cons'] at h
    obtain ⟨hhead, htail⟩ := h
    rw [btreeInsert]
    by_cases h1 : strLt k j = true
    · rw [if_pos h1]
      rw [KeysSorted, List.chain'_cons']
      refine ⟨?_, List.chain'_cons'.mpr ⟨hhead, htail⟩⟩
      intro y hy
      simp only [List.head?_cons, Option.mem_def, Option.some.injEq] at hy
      subst hy
      exact h1
    · rw [if_neg h1]
      by_cases h2 : k = j
      · rw [if_pos h2]
        subst h2
        exact List.chain'_cons'.mpr ⟨hhead, htail⟩
      · rw [if_neg h2]
        have hjk : strLt j k = true := by
          rcases strLt_tri k j with h | h | h
          · exact absurd h h1
          · exact absurd h h2
          · exact h
        exact List.chain'_cons'.mpr
          ⟨btreeInsert_head_lt l k v j hjk hhead, ih htail⟩

/-- Insertions at distinct keys commute. -/
theorem btreeInsert_comm (l : List (String × String)) (k1 v1 k2 v2 : String)
    (hk : k1 ≠ k2) :
    btreeInsert (btreeInsert l k1 v1) k2 v2 =
      btreeInsert (btreeInsert l k2 v2) k1 v1 := by
  induction l with
  | nil =>
    rcases strLt_tri k1 k2 with h | h | h
    · simp [btreeInsert, h, strLt_asymm h, hk, Ne.symm hk]
    · exact absurd h hk
    · simp [btreeInsert, h, strLt_asymm h, hk, Ne.symm hk]
  | cons a l ih =>
    obtain ⟨j, w⟩ := a
    rcases strLt_tri k1 j with hj1 | hj1 | hj1
    · rcases strLt_tri k2 j with hj2 | hj2 | hj2
      · rcases strLt_tri k1 k2 with h12 | h12 | h12
        · simp [btreeInsert, hj1, hj2, h12, strLt_asymm h12,
            (ne_of_strLt h12).symm]
        · exact absurd h12 hk
        · simp [btreeInsert, hj1, hj2, h12, strLt_asymm h12,
            (ne_of_strLt h12).symm]
      · subst hj2
        simp [btreeInsert, hj1, strLt_asymm hj1, strLt_irrefl, Ne.symm hk]
      · have h12 : strLt k1 k2 = true := strLt_trans hj1 hj2
        simp [btreeInsert, hj1, hj2, strLt_asymm hj2, (ne_of_strLt hj2).symm,
          strLt_asymm h12, (ne_of_strLt h12).symm]
    · subst hj1
      rcases strLt_tri k2 k1 with hj2 | hj2 | hj2
      · simp [btreeInsert, hj2, strLt_asymm hj2, strLt_irrefl, hk]
      · exact absurd hj2.symm hk
      · simp [btreeInsert, hj2, strLt_asymm hj2, strLt_irrefl,
          (ne_of_strLt hj2).symm]
    · rcases strLt_tri k2 j with hj2 | hj2 | hj2
      · have h21 : strLt k2 k1 = true := strLt_trans hj2 hj1
        simp [btreeInsert, hj1, hj2, strLt_asymm hj1, (ne_of_strLt hj1).symm,
          strLt_asymm h21, (ne_of_strLt h21).symm]
      · subst hj2
        simp [btreeInsert, strLt_asymm hj1, (ne_of_strLt hj1).symm,
          strLt_irrefl, hk]
      · simp [btreeInsert, strLt_asymm hj1, (ne_of_strLt hj1).symm,
          strLt_asymm hj2, (ne_of_strLt hj2).symm, ih]

/-- C7: job options render in ascending key order regardless of insertion
order: every map built by insertions is key-sorted, insertions at distinct
keys commute, each pair is emitted raw as `-o key=value` with no escaping,
and the concrete map with keys z and a renders as `-o a=2 -o z=1` under
either insertion order. -/
theorem c7_job_options_sorted :
    (∀ inserts : List (String × String),
      KeysSorted (inserts.foldl (fun m kv => btreeInsert m kv.1 kv.2) [])) ∧
    (∀ (l : List (String × String)) (k1 v1 k2 v2 : String), k1 ≠ k2 →
      btreeInsert (btreeInsert l k1 v1) k2 v2 =
        btreeInsert (btreeInsert l k2 v2) k1 v1) ∧
    (∀ k v : String,
      command.build_base ⟨none, none, none, [(k, v)], false⟩ =
        "lp" ++ " -o " ++ k ++ "=" ++ v) ∧
    btreeInsert (btreeInsert [] "z" "1") "a" "2" = [("a", "2"), ("z", "1")] ∧
    command.build_base
        ⟨none, none, none, btreeInsert (btreeInsert [] "z" "1") "a" "2", false⟩ =
      "lp -o a=2 -o z=1" ∧
    command.build_base
        ⟨none, none, none, btreeInsert (btreeInsert [] "a" "2") "z" "1", false⟩ =
      "lp -o a=2 -o z=1" := by
  refine ⟨?_, fun l k1 v1 k2 v2 h => btreeInsert_comm l k1 v1 k2 v2 h,
    fun k v => rfl, rfl, rfl, rfl⟩
  have hfold : ∀ (inserts : List (String × String)) (m : List (String × String)),
      KeysSorted m →
      KeysSorted (inserts.foldl (fun m kv => btreeInsert m kv.1 kv.2) m) := by
    intro inserts
    induction inserts with
    | nil => exact fun m hm => hm
    | cons kv rest ih =>
      intro m hm
      exact ih _ (btreeInsert_sorted kv.1 kv.2 hm)
  exact fun inserts => hfold inserts [] List.chain'_nil

/-- Witness for C7: commuting two concrete insertions with distinct keys. -/
theorem c7_job_options_sorted_witness :
    btreeInsert (btreeInsert [("media", "a4")] "z" "1") "a" "2" =
      btreeInsert (btreeInsert [("media", "a4")] "a" "2") "z" "1" :=
  c7_job_options_sorted.2.1 [("media", "a4")] "z" "1" "a" "2" (by decide)
